import Mathlib

/-!
Shallow embedding of the smolbench micro-benchmark harness.

Numbers (JS doubles used as millisecond timings) are modelled as rationals.
The high-resolution clock is modelled by threading an explicit clock value;
a fancy workload is modelled by the trace of its observable interactions per
trial: unmeasured setup work and invocations of the `measure` callback, each
advancing the clock by a duration.  The process-wide report registry and the
parsed on-disk JSON mapping are modelled as partial maps from strings.
-/

namespace Smolbench

/-- Resolved benchmark options (`BenchOpts` in the source). -/
structure BenchOpts where
  warmupTime : ℚ
  testTime : ℚ
  samples : ℕ
  name : Option String
  quiet : Bool
deriving DecidableEq, Repr

/-- `defaultOpts` from the source. -/
def defaultOpts : BenchOpts :=
  { warmupTime := 3000, testTime := 10000, samples := 100, name := none, quiet := false }

/-- A caller-supplied partial options object: absent fields are `none`
(spread `\x7b...defaultOpts, ...options\x7d` keeps defaults for absent fields). -/
structure PartialBenchOpts where
  warmupTime : Option ℚ
  testTime : Option ℚ
  samples : Option ℕ
  name : Option String
  quiet : Option Bool
deriving DecidableEq, Repr

/-- The first argument of `bench` / `benchFancy`: `null`, a bare name string,
or a (partial) options object. -/
inductive BenchArg where
  | null
  | str (s : String)
  | opts (o : PartialBenchOpts)
deriving DecidableEq, Repr

/-- Option resolution at the top of `benchFancy`:
`options == null ? defaultOpts : typeof options === 'string' ?
\x7b ...defaultOpts, name: options \x7d : \x7b ...defaultOpts, ...options \x7d`. -/
def resolveOpts : BenchArg → BenchOpts
  | .null => defaultOpts
  | .str s => { defaultOpts with name := some s }
  | .opts o =>
    { warmupTime := o.warmupTime.getD defaultOpts.warmupTime
      testTime := o.testTime.getD defaultOpts.testTime
      samples := o.samples.getD defaultOpts.samples
      name := o.name
      quiet := o.quiet.getD defaultOpts.quiet }

/-- A stored benchmark report (`BenchmarkReport` in the source). -/
structure BenchmarkReport where
  meanTime : ℚ
  options : BenchOpts
  sampleTimes : List ℚ
deriving DecidableEq, Repr

/-- The process-wide report registry `reports : Record<string, BenchmarkReport>`,
modelled as a partial map. -/
abbrev ReportStore : Type := String → Option BenchmarkReport

/-- The empty registry (its state at process start). -/
def emptyStore : ReportStore := fun _ => none

/-- `reports[name] = r` : point update of the registry. -/
def storeSet (st : ReportStore) (nm : String) (r : BenchmarkReport) : ReportStore :=
  fun k => if k = nm then some r else st k

/-! ### Rounder -/

/-- JS `Math.round`: rounds to the nearest integer, halves toward `+∞`. -/
def jsRound (n : ℚ) : ℤ := ⌊n + 1/2⌋

/-- `roundDigits` from the source: `Math.round(n * 10^digits) / 10^digits`. -/
def roundDigits (n : ℚ) (digits : ℕ) : ℚ :=
  let m : ℚ := 10 ^ digits
  (jsRound (n * m) : ℚ) / m

/-- `round` from the source: magnitude-adaptive decimal rounding. -/
def round (n : ℚ) : ℚ :=
  if n < 1 then roundDigits n 3
  else if n < 10 then roundDigits n 2
  else if n < 100 then roundDigits n 1
  else (jsRound n : ℚ)

/-! ### Single-Trial Runner -/

/-- One observable step of a fancy workload during a single trial:
either unmeasured setup work taking `d` milliseconds, or an invocation of the
`measure` callback whose measured region takes `d` milliseconds. -/
inductive WorkloadEvent where
  | setup (d : ℚ)
  | measure (d : ℚ)
deriving DecidableEq, Repr

/-- The behaviour of one trial of a fancy workload (`FancyFn` applied once):
the ordered trace of its events. -/
abbrev FancyTrace : Type := List WorkloadEvent

/-- A fancy workload across trials: the engine calls the workload once per
trial, and a stateful closure may behave differently each time, so the model
maps the trial index to that trial's trace. -/
abbrev FancyFn : Type := ℕ → FancyTrace

/-- The mutable locals of `run1`: `start`, `end` and `run`. -/
structure Run1State where
  start : ℚ
  stop : ℚ
  run : Bool
deriving DecidableEq, Repr

/-- Replay of the workload body inside `run1`: setup work advances the clock;
each `measure` invocation records `start = now()`, runs the region, records
`end = now()` and sets `run = true`, overwriting the previous values. -/
def run1Aux : ℚ → Run1State → FancyTrace → ℚ × Run1State
  | clock, st, [] => (clock, st)
  | clock, st, .setup d :: rest => run1Aux (clock + d) st rest
  | clock, _, .measure d :: rest =>
      run1Aux (clock + d) ⟨clock, clock + d, true⟩ rest

/-- `run1` from the source: runs one trial starting at the given clock value;
returns the advanced clock and `end - start`, or the protocol-violation error
when the workload never invoked `measure`. -/
def run1 (clock : ℚ) (fn : FancyTrace) : Except String (ℚ × ℚ) :=
  let res := run1Aux clock ⟨0, 0, false⟩ fn
  if res.2.run then .ok (res.1, res.2.stop - res.2.start)
  else .error "Benchmark must run iteration function"

/-- Total duration of a trace (how far one trial advances the clock). -/
def traceDur : FancyTrace → ℚ
  | [] => 0
  | .setup d :: rest => d + traceDur rest
  | .measure d :: rest => d + traceDur rest

/-- The duration of the last `measure` invocation in a trace, if any.
Defined structurally, independently of `run1`. -/
def lastMeasureDur : FancyTrace → Option ℚ
  | [] => none
  | .setup _ :: rest => lastMeasureDur rest
  | .measure d :: rest => some ((lastMeasureDur rest).getD d)

/-- Number of `measure` invocations in a trace. -/
def countMeasures : FancyTrace → ℕ
  | [] => 0
  | .setup _ :: rest => countMeasures rest
  | .measure _ :: rest => countMeasures rest + 1

/-! ### Benchmark Engine -/

/-- The warmup `do`/`while` loop of `benchFancy`:
`do \x7b warmupTime += run1(fn); warmupCount++ \x7d while (warmupCount < 4 || warmupTime < opts.warmupTime)`.
Arguments: the workload, the configured `warmupTime` bound, fuel (the loop has
no termination guarantee when trials take zero time), then the loop state —
current trial index (= `warmupCount`), accumulated `warmupTime` and the clock.
Returns `ok none` when the fuel runs out before the loop exits, otherwise
`ok (some (warmupCount, warmupTime, clock))`; a `run1` error propagates. -/
def warmupLoop (fn : FancyFn) (bound : ℚ) :
    ℕ → ℕ → ℚ → ℚ → Except String (Option (ℕ × ℚ × ℚ))
  | 0, _, _, _ => .ok none
  | fuel + 1, count, acc, clock =>
    match run1 clock (fn count) with
    | .error e => .error e
    | .ok (clock', elapsed) =>
      if count + 1 < 4 ∨ acc + elapsed < bound then
        warmupLoop fn bound fuel (count + 1) (acc + elapsed) clock'
      else
        .ok (some (count + 1, acc + elapsed, clock'))

/-- Sample-count derivation in `benchFancy`:
`Math.max(opts.samples, Math.floor(opts.testTime / timePerIteration))`. -/
def deriveSamples (opts : BenchOpts) (timePerIteration : ℚ) : ℤ :=
  max (opts.samples : ℤ) ⌊opts.testTime / timePerIteration⌋

/-- The sampling `for` loop of `benchFancy`: runs the remaining number of
trials, accumulating `totalTime` and pushing each trial's time onto
`sampleTimes` in execution order; a `run1` error propagates.
Returns `(totalTime, sampleTimes, clock)`. -/
def sampleLoop (fn : FancyFn) :
    ℕ → ℕ → ℚ → ℚ → List ℚ → Except String (ℚ × List ℚ × ℚ)
  | 0, _, clock, total, times => .ok (total, times, clock)
  | n + 1, idx, clock, total, times =>
    match run1 clock (fn idx) with
    | .error e => .error e
    | .ok (clock', time) =>
        sampleLoop fn n (idx + 1) clock' (total + time) (times ++ [time])

/-- `benchFancy` from the source.  The clock is the current monotonic time at
entry; `fuel` bounds the warmup loop (see `warmupLoop`).  Returns the updated
report registry on success (`ok none` when the warmup fuel ran out), and
propagates any `run1` protocol-violation error, in which case the registry is
untouched — the source writes `reports[opts.name]` only after both phases
complete. -/
def benchFancy (options : BenchArg) (fn : FancyFn) (fuel : ℕ) (clock : ℚ)
    (st : ReportStore) : Except String (Option ReportStore) :=
  let opts := resolveOpts options
  match warmupLoop fn opts.warmupTime fuel 0 0 clock with
  | .error e => .error e
  | .ok none => .ok none
  | .ok (some (warmupCount, warmupTime, clock')) =>
    let timePerIteration := warmupTime / (warmupCount : ℚ)
    let samples := deriveSamples opts timePerIteration
    match sampleLoop fn samples.toNat warmupCount clock' 0 [] with
    | .error e => .error e
    | .ok (totalTime, sampleTimes, _) =>
      let meanTime := totalTime / (samples : ℚ)
      match opts.name with
      | some nm =>
          .ok (some (storeSet st nm
            { sampleTimes := sampleTimes, meanTime := meanTime, options := opts }))
      | none => .ok (some st)

/-- A plain zero-argument workload: what each invocation's elapsed time is,
per trial index. -/
abbrev PlainFn : Type := ℕ → ℚ

/-- The adapter used by `bench`: a fancy workload whose whole body is one
`measure` call on the plain workload. -/
def wrapPlain (fn : PlainFn) : FancyFn := fun i => [.measure (fn i)]

/-- `bench` from the source: `benchFancy` applied to the wrapped workload. -/
def bench (options : BenchArg) (fn : PlainFn) (fuel : ℕ) (clock : ℚ)
    (st : ReportStore) : Except String (Option ReportStore) :=
  benchFancy options (wrapPlain fn) fuel clock st

/-! ### On-disk JSON model -/

/-- A parsed JSON value (the result of a successful `JSON.parse`). -/
inductive JsonValue where
  | null
  | bool (b : Bool)
  | num (q : ℚ)
  | str (s : String)
  | arr (xs : List JsonValue)
  | obj (fields : List (String × JsonValue))
deriving Repr

/-- The state of the report file as seen through `fs.readFileSync` +
`JSON.parse` (both external collaborators): `none` = the file is absent
(read throws `ENOENT`); `some (.error ())` = content present but
`JSON.parse` throws; `some (.ok v)` = content parses to `v`. -/
abbrev DiskContent : Type := Option (Except Unit JsonValue)

/-- JS `typeof v === 'object'` on a parsed JSON value: true exactly for
`null`, arrays and objects. -/
def jsTypeofObject : JsonValue → Bool
  | .null => true
  | .arr _ => true
  | .obj _ => true
  | _ => false

/-- A JS string→value map, the semantic content of an object. -/
abbrev JsMap : Type := String → Option JsonValue

/-- The empty map (`\x7b\x7d`). -/
def emptyJsMap : JsMap := fun _ => none

/-- `isNull v` : JS `v == null` on a parsed JSON value. -/
def isNull : JsonValue → Bool
  | .null => true
  | _ => false

/-- Key lookup in an object's field list; a later duplicate key wins, as in JS. -/
def objGet (fields : List (String × JsonValue)) (k : String) : Option JsonValue :=
  match fields with
  | [] => none
  | (k', v) :: rest =>
    match objGet rest k with
    | some w => some w
    | none => if k = k' then some v else none

/-- The own enumerable properties of a parsed JSON value, as a map — what the
spread operator copies.  Arrays contribute index keys; objects their fields;
primitives and `null` contribute nothing. -/
def jsProps : JsonValue → JsMap
  | .obj fields => objGet fields
  | .arr xs => fun k => (xs.enum.find? (fun p => toString p.1 = k)).map (·.2)
  | _ => fun _ => none

/-- JS object spread: later properties override earlier ones. -/
def jsSpread (a b : JsMap) : JsMap := fun k =>
  match b k with
  | some v => some v
  | none => a k

/-- The condition under which the source's "Report file is not an object"
guard passes: `typeof v === 'object' && v != null`. -/
def passesObjectCheck (v : JsonValue) : Bool :=
  jsTypeofObject v && !(isNull v)

/-- Serialization of resolved options for the report file. -/
def optsToJson (o : BenchOpts) : JsonValue :=
  .obj ([("warmupTime", .num o.warmupTime), ("testTime", .num o.testTime),
         ("samples", .num (o.samples : ℚ))]
    ++ (match o.name with
        | some nm => [("name", JsonValue.str nm)]
        | none => [])
    ++ [("quiet", .bool o.quiet)])

/-- Serialization of a stored report, mirroring the object literal written by
`benchFancy`. -/
def reportToJson (r : BenchmarkReport) : JsonValue :=
  .obj [("sampleTimes", .arr (r.sampleTimes.map .num)),
        ("meanTime", .num r.meanTime),
        ("options", optsToJson r.options)]

/-- The in-memory registry viewed as a JS map of JSON values. -/
def storeProps (st : ReportStore) : JsMap := fun k => (st k).map reportToJson

/-! ### Report Store persistence -/

/-- `saveReportsSync` from the source, as a function from the current disk
content and registry to the mapping written back to the file (or the error
raised to the caller).  An absent file (`ENOENT`) alone is swallowed, leaving
`currentReports` empty; a parse failure and the not-an-object check are both
re-raised; the merge spreads the registry over the on-disk entries. -/
def saveReportsSync (disk : DiskContent) (st : ReportStore) :
    Except String JsMap :=
  match disk with
  | none => .ok (jsSpread emptyJsMap (storeProps st))
  | some (.error _) => .error "SyntaxError"
  | some (.ok v) =>
    if passesObjectCheck v then
      .ok (jsSpread (jsProps v) (storeProps st))
    else
      .error "Report file is not an object"

/-! ### Report Table Renderer -/

/-- The `mean` cell computed for one merged entry:
`round(r[name].meanTime)`.  Property access on a value without a numeric
`meanTime` field yields no number (JS `undefined`, rendered as `NaN`),
modelled as `none`. -/
def meanCell (v : JsonValue) : Option ℚ :=
  match v with
  | .obj fields =>
    match objGet fields "meanTime" with
    | some (.num q) => some (round q)
    | _ => none
  | _ => none

/-- The rendered table: one row per merged name, keyed by name. -/
abbrev TableData : Type := String → Option (Option ℚ)

/-- `reportTable` from the source.  `file = none` models calling it without a
path.  With a path, the read and parse are unguarded: an absent file or a
parse failure propagates; a parsed non-object is rejected; otherwise the
on-disk properties are spread OVER the in-memory ones
(`r = \x7b ...r, ...fileReports \x7d`), and each resulting entry is rendered as a
rounded `mean` cell. -/
def reportTable (file : Option DiskContent) (st : ReportStore) :
    Except String TableData :=
  match file with
  | none => .ok (fun k => (storeProps st k).map meanCell)
  | some none => .error "ENOENT"
  | some (some (.error _)) => .error "SyntaxError"
  | some (some (.ok v)) =>
    if passesObjectCheck v then
      .ok (fun k => (jsSpread (storeProps st) (jsProps v) k).map meanCell)
    else
      .error "Report file is not an object"

/-- Projection of one rendered cell out of a `reportTable` result, for stating
concrete rendering facts. -/
def renderedCell (file : Option DiskContent) (st : ReportStore) (k : String) :
    Except String (Option (Option ℚ)) :=
  (reportTable file st).map (fun t => t k)

/-- The sequence of measured per-trial times a workload produces over `n`
consecutive trials starting at trial `idx` (the duration of the last measured
region of each trial). -/
def sampleTimesOf (fn : FancyFn) (idx n : ℕ) : List ℚ :=
  (List.range n).map (fun j => (lastMeasureDur (fn (idx + j))).getD 0)

/-! ### Well-formedness of persisted content -/

/-- `v` is a JSON number. -/
def isNumJson : JsonValue → Bool
  | .num _ => true
  | _ => false

/-- Modelled from the spec: the persisted-file format of one report — an
object with a numeric `meanTime`, a `sampleTimes` array of numbers and an
`options` object.  The source has no validator for this shape; the spec's
"Persisted file format" section defines it. -/
def isReportShape : JsonValue → Bool
  | .obj fields =>
    (match objGet fields "meanTime" with
     | some (.num _) => true
     | _ => false) &&
    (match objGet fields "sampleTimes" with
     | some (.arr xs) => xs.all isNumJson
     | _ => false) &&
    (match objGet fields "options" with
     | some (.obj _) => true
     | _ => false)
  | _ => false

/-- Modelled from the spec: a well-formed name-to-report mapping — an object
whose every value is report-shaped.  Only used to state what the source's
object check does NOT enforce. -/
def isWellFormedReportMapping : JsonValue → Bool
  | .obj fields => fields.all (fun p => isReportShape p.2)
  | _ => false

/-- `Except.isOk` as an explicit helper usable on result types that carry
functions. -/
def exceptIsOk {α : Type} : Except String α → Bool
  | .ok _ => true
  | .error _ => false

instance {ε α : Type} [DecidableEq ε] [DecidableEq α] : DecidableEq (Except ε α) := fun x y =>
  match x, y with
  | .ok a, .ok b =>
    if h : a = b then .isTrue (congrArg _ h)
    else .isFalse (fun hh => h (Except.ok.inj hh))
  | .error a, .error b =>
    if h : a = b then .isTrue (congrArg _ h)
    else .isFalse (fun hh => h (Except.error.inj hh))
  | .ok _, .error _ => .isFalse (fun hh => Except.noConfusion hh)
  | .error _, .ok _ => .isFalse (fun hh => Except.noConfusion hh)

/-! ### Concrete fixtures for witnesses and counterexamples -/

/-- A workload whose measured region takes zero time, every trial. -/
def zeroFn : FancyFn := fun _ => [.measure 0]

/-- A workload whose measured region takes 1 ms, every trial. -/
def oneFn : FancyFn := fun _ => [.measure 1]

/-- A workload that returns without ever invoking `measure`. -/
def noMeasureFn : FancyFn := fun _ => []

/-- A single trial doing only unmeasured setup. -/
def setupOnly : FancyTrace := [.setup 1]

/-- A trial that invokes `measure` twice (regions of 1 ms, then 2 ms). -/
def measureTwice : FancyTrace := [.measure 1, .measure 2]

/-- Default options with a zero warmup-time bound. -/
def optsWarm0 : BenchOpts := { defaultOpts with warmupTime := 0 }

/-- A small fully-specified options argument: warmup 1 ms, test 1 ms,
2 samples, named "A". -/
def tinyArg : BenchArg := .opts ⟨some 1, some 1, some 2, some "A", some false⟩

/-- The report `benchFancy tinyArg oneFn` produces. -/
def tinyReport : BenchmarkReport := ⟨1, resolveOpts tinyArg, [1, 1]⟩

/-- The registry after that run. -/
def tinyStore : ReportStore := storeSet emptyStore "A" tinyReport

/-- An in-memory report with meanTime 1. -/
def rptOne : BenchmarkReport := ⟨1, defaultOpts, []⟩

/-- Registry holding "A" ↦ `rptOne`. -/
def storeA : ReportStore := storeSet emptyStore "A" rptOne

/-- On-disk mapping holding "A" with meanTime 2. -/
def diskA : JsonValue := .obj [("A", .obj [("meanTime", .num 2)])]

/-- The table `reportTable` renders from `storeA` overlaid with `diskA`. -/
def tableA : TableData :=
  fun k => (jsSpread (storeProps storeA) (jsProps diskA) k).map meanCell

/-- An in-memory report with meanTime 3 for "A". -/
def rptNew : BenchmarkReport := ⟨3, defaultOpts, [3]⟩

/-- Registry holding "A" ↦ `rptNew`. -/
def storeB : ReportStore := storeSet emptyStore "A" rptNew

/-- On-disk mapping holding stale "A" and disk-only "B". -/
def diskAB : JsonValue :=
  .obj [("A", .obj [("meanTime", .num 2)]), ("B", .obj [("meanTime", .num 7)])]

/-- The mapping `saveReportsSync` writes for `diskAB` and `storeB`. -/
def mergedAB : JsMap := jsSpread (jsProps diskAB) (storeProps storeB)

/-- The mapping `saveReportsSync` writes when the file is absent. -/
def savedEmpty : JsMap := jsSpread emptyJsMap (storeProps emptyStore)

/-- Present on-disk content that parses to an array. -/
def arrayContent : JsonValue := .arr [.num 1]

/-- Present on-disk content that parses to a bare string. -/
def notObjContent : JsonValue := .str "not an object"

/-! ### Helper lemmas: the Single-Trial Runner -/

theorem run1Aux_clock (t : FancyTrace) :
    ∀ (clock : ℚ) (st : Run1State), (run1Aux clock st t).1 = clock + traceDur t := by
  induction t with
  | nil => intro clock st; simp [run1Aux, traceDur]
  | cons e rest ih =>
    intro clock st
    cases e with
    | setup d => simp [run1Aux, traceDur, ih]; ring
    | measure d => simp [run1Aux, traceDur, ih]; ring

theorem run1Aux_state_none (t : FancyTrace) (h : lastMeasureDur t = none) :
    ∀ (clock : ℚ) (st : Run1State), (run1Aux clock st t).2 = st := by
  induction t with
  | nil => intro clock st; simp [run1Aux]
  | cons e rest ih =>
    intro clock st
    cases e with
    | setup d =>
      simp only [lastMeasureDur] at h
      simp [run1Aux, ih h]
    | measure d => simp [lastMeasureDur] at h

theorem run1Aux_state_some (t : FancyTrace) :
    ∀ (d : ℚ), lastMeasureDur t = some d →
      ∀ (clock : ℚ) (st : Run1State),
        ∃ s, (run1Aux clock st t).2 = ⟨s, s + d, true⟩ := by
  induction t with
  | nil => intro d h; simp [lastMeasureDur] at h
  | cons e rest ih =>
    intro d h clock st
    cases e with
    | setup d' =>
      simp only [lastMeasureDur] at h
      exact ih d h (clock + d') st
    | measure d' =>
      simp only [lastMeasureDur] at h
      cases hr : lastMeasureDur rest with
      | none =>
        rw [hr] at h
        simp only [Option.getD_none, Option.some.injEq] at h
        subst h
        refine ⟨clock, ?_⟩
        simp [run1Aux, run1Aux_state_none rest hr]
      | some d'' =>
        rw [hr] at h
        simp only [Option.getD_some, Option.some.injEq] at h
        subst h
        exact ih d'' hr (clock + d') ⟨clock, clock + d', true⟩

/-- When the workload never demarcates a measured region, `run1` raises the
protocol-violation error. -/
theorem run1_of_lastMeasure_none (t : FancyTrace) (h : lastMeasureDur t = none)
    (clock : ℚ) : run1 clock t = .error "Benchmark must run iteration function" := by
  simp [run1, run1Aux_state_none t h]

/-- When the workload's last measured region takes `d`, `run1` advances the
clock by the whole trace's duration and returns `d`. -/
theorem run1_of_lastMeasure_some (t : FancyTrace) (d : ℚ)
    (h : lastMeasureDur t = some d) (clock : ℚ) :
    run1 clock t = .ok (clock + traceDur t, d) := by
  obtain ⟨s, hs⟩ := run1Aux_state_some t d h clock ⟨0, 0, false⟩
  simp [run1, hs, run1Aux_clock]

theorem lastMeasureDur_eq_none_of_countMeasures (t : FancyTrace)
    (h : countMeasures t = 0) : lastMeasureDur t = none := by
  induction t with
  | nil => rfl
  | cons e rest ih =>
    cases e with
    | setup d =>
      simp only [countMeasures] at h
      simp [lastMeasureDur, ih h]
    | measure d => simp [countMeasures] at h

theorem lastMeasureDur_append_measure (t : FancyTrace) (e : ℚ) :
    lastMeasureDur (t ++ [.measure e]) = some e := by
  induction t with
  | nil => rfl
  | cons ev rest ih =>
    cases ev with
    | setup d => simpa [lastMeasureDur] using ih
    | measure d => simp [lastMeasureDur, ih]

/-! ### Helper lemmas: the Rounder -/

theorem abs_jsRound_sub_le (x : ℚ) : |(jsRound x : ℚ) - x| ≤ 1 / 2 := by
  unfold jsRound
  have h1 : ((⌊x + 1/2⌋ : ℤ) : ℚ) ≤ x + 1/2 := Int.floor_le _
  have h2 : x + 1/2 - 1 < ((⌊x + 1/2⌋ : ℤ) : ℚ) := Int.sub_one_lt_floor _
  rw [abs_le]
  constructor <;> linarith

theorem abs_roundDigits_sub_le (n : ℚ) (d : ℕ) :
    |roundDigits n d - n| ≤ 1 / (2 * 10 ^ d) := by
  have hm : (0 : ℚ) < 10 ^ d := by positivity
  have h := abs_jsRound_sub_le (n * 10 ^ d)
  have heq : roundDigits n d - n = ((jsRound (n * 10 ^ d) : ℚ) - n * 10 ^ d) / 10 ^ d := by
    unfold roundDigits
    field_simp
    ring
  have hhalf : (1 : ℚ) / (2 * 10 ^ d) * 10 ^ d = 1 / 2 := by
    field_simp
    ring
  rw [heq, abs_div, abs_of_pos hm, div_le_iff₀ hm, hhalf]
  exact h

/-! ### Helper lemmas: the engine loops -/

/-- Whenever the warmup loop exits normally, the do/while exit condition has
just become false: at least 4 trials were run and the accumulated time reached
the configured bound. -/
theorem warmupLoop_exit (fn : FancyFn) (bound : ℚ) :
    ∀ (fuel count : ℕ) (acc clock : ℚ) (c : ℕ) (t k : ℚ),
      warmupLoop fn bound fuel count acc clock = .ok (some (c, t, k)) →
      4 ≤ c ∧ bound ≤ t := by
  intro fuel
  induction fuel with
  | zero => intro count acc clock c t k h; simp [warmupLoop] at h
  | succ m ih =>
    intro count acc clock c t k h
    rw [warmupLoop] at h
    split at h
    · exact absurd h (by simp)
    · split at h
      · exact ih _ _ _ _ _ _ h
      · rename_i hc
        push_neg at hc
        obtain ⟨hc1, hc2⟩ := hc
        simp only [Except.ok.injEq, Option.some.injEq, Prod.mk.injEq] at h
        obtain ⟨hcc, hct, -⟩ := h
        refine ⟨by omega, ?_⟩
        rw [← hct]
        exact hc2

theorem sampleTimesOf_succ (fn : FancyFn) (idx n : ℕ) :
    sampleTimesOf fn idx (n + 1) =
      (lastMeasureDur (fn idx)).getD 0 :: sampleTimesOf fn (idx + 1) n := by
  unfold sampleTimesOf
  rw [List.range_succ_eq_map, List.map_cons, List.map_map]
  refine congrArg₂ _ (by simp) ?_
  have : ((fun j => (lastMeasureDur (fn (idx + j))).getD 0) ∘ Nat.succ) =
      (fun j => (lastMeasureDur (fn (idx + 1 + j))).getD 0) := by
    funext j
    simp only [Function.comp_apply, Nat.succ_eq_add_one]
    have hj : idx + (j + 1) = idx + 1 + j := by omega
    rw [hj]
  rw [this]

/-- Whenever the sampling loop completes, the pushed sample times are exactly
the workloads' measured per-trial times, appended in execution order, and the
accumulated total is their sum. -/
theorem sampleLoop_spec (fn : FancyFn) :
    ∀ (n idx : ℕ) (clock total : ℚ) (times : List ℚ) (out : ℚ × List ℚ × ℚ),
      sampleLoop fn n idx clock total times = .ok out →
      out.2.1 = times ++ sampleTimesOf fn idx n ∧
      out.1 = total + (sampleTimesOf fn idx n).sum := by
  intro n
  induction n with
  | zero =>
    intro idx clock total times out h
    simp only [sampleLoop, Except.ok.injEq] at h
    subst h
    simp [sampleTimesOf]
  | succ m ih =>
    intro idx clock total times out h
    rw [sampleLoop] at h
    cases hl : lastMeasureDur (fn idx) with
    | none =>
      rw [run1_of_lastMeasure_none (fn idx) hl clock] at h
      exact absurd h (by simp)
    | some d =>
      rw [run1_of_lastMeasure_some (fn idx) d hl clock] at h
      obtain ⟨h1, h2⟩ := ih (idx + 1) (clock + traceDur (fn idx)) (total + d)
        (times ++ [d]) out h
      rw [sampleTimesOf_succ, hl]
      constructor
      · rw [h1]; simp
      · rw [h2]; simp only [Option.getD_some, List.sum_cons]; ring

theorem sampleTimesOf_length (fn : FancyFn) (idx n : ℕ) :
    (sampleTimesOf fn idx n).length = n := by
  simp [sampleTimesOf]

theorem deriveSamples_nonneg (opts : BenchOpts) (tpi : ℚ) :
    0 ≤ deriveSamples opts tpi :=
  le_trans (Int.natCast_nonneg _) (le_max_left _ _)

/-! ### Claims -/

/-- C2: the warmup loop continues while `(count < 4) OR (accumulated <
warmupTime)`, so whenever the engine's warmup phase (entered with counter 0
and accumulator 0, as `benchFancy` enters it) terminates, it has run at least
4 trials — however fast each trial was — and has also met the configured
warmup-time bound. -/
theorem c2_warmup_at_least_four (opts : BenchOpts) (fn : FancyFn) (fuel : ℕ)
    (clock : ℚ) (c : ℕ) (t k : ℚ)
    (h : warmupLoop fn opts.warmupTime fuel 0 0 clock = .ok (some (c, t, k))) :
    4 ≤ c ∧ opts.warmupTime ≤ t :=
  warmupLoop_exit fn opts.warmupTime fuel 0 0 clock c t k h

/-- Witness for C2: a zero-time workload under a zero warmup bound exits the
warmup loop after exactly 4 trials. -/
theorem c2_warmup_at_least_four_witness : 4 ≤ 4 ∧ optsWarm0.warmupTime ≤ (0 : ℚ) :=
  c2_warmup_at_least_four optsWarm0 zeroFn 10 0 4 0 0
    (by norm_num [warmupLoop, run1, run1Aux, zeroFn, optsWarm0, defaultOpts])

/-- C3: a fancy workload that returns without invoking `measure` makes `run1`
fail with the protocol-violation error; the error propagates out of the whole
engine run (so no report is written — `benchFancy` yields an updated registry
only on success) and likewise propagates out of the sampling loop. -/
theorem c3_protocol_violation (t : FancyTrace) (fn : FancyFn) (options : BenchArg)
    (fuel n idx : ℕ) (clock clock2 total : ℚ) (times : List ℚ) (st : ReportStore)
    (ht : countMeasures t = 0) (hf : countMeasures (fn 0) = 0)
    (hfuel : 1 ≤ fuel) (hidx : countMeasures (fn idx) = 0) (hn : 1 ≤ n) :
    run1 clock t = .error "Benchmark must run iteration function" ∧
    benchFancy options fn fuel clock st = .error "Benchmark must run iteration function" ∧
    sampleLoop fn n idx clock2 total times = .error "Benchmark must run iteration function" := by
  refine ⟨run1_of_lastMeasure_none t (lastMeasureDur_eq_none_of_countMeasures t ht) clock,
    ?_, ?_⟩
  · obtain ⟨m, rfl⟩ : ∃ m, fuel = m + 1 := ⟨fuel - 1, by omega⟩
    have hw : warmupLoop fn (resolveOpts options).warmupTime (m + 1) 0 0 clock =
        .error "Benchmark must run iteration function" := by
      rw [warmupLoop,
        run1_of_lastMeasure_none (fn 0) (lastMeasureDur_eq_none_of_countMeasures _ hf) clock]
    simp [benchFancy, hw]
  · obtain ⟨m, rfl⟩ : ∃ m, n = m + 1 := ⟨n - 1, by omega⟩
    rw [sampleLoop,
      run1_of_lastMeasure_none (fn idx) (lastMeasureDur_eq_none_of_countMeasures _ hidx) clock2]

/-- Witness for C3: a setup-only trial, and the engine and sampling loop on a
workload that never measures. -/
theorem c3_protocol_violation_witness :
    run1 0 setupOnly = .error "Benchmark must run iteration function" ∧
    benchFancy .null noMeasureFn 1 0 emptyStore = .error "Benchmark must run iteration function" ∧
    sampleLoop noMeasureFn 1 0 0 0 [] = .error "Benchmark must run iteration function" :=
  c3_protocol_violation setupOnly noMeasureFn .null 1 1 0 0 0 0 [] emptyStore
    (by decide) (by decide) (by decide) (by decide) (by decide)

/-- C4: the derived sample count equals `max(samples, floor(testTime /
estimate))`; it is therefore always at least the configured sample floor, and
no upper bound is imposed: for any target `B` there is a positive estimate
forcing at least `B` samples. -/
theorem c4_sample_count (opts : BenchOpts) (est : ℚ) (B : ℤ)
    (ht : 0 < opts.testTime) :
    deriveSamples opts est = max (opts.samples : ℤ) ⌊opts.testTime / est⌋ ∧
    (opts.samples : ℤ) ≤ deriveSamples opts est ∧
    0 < opts.testTime / ((max B 1 : ℤ) : ℚ) ∧
    B ≤ deriveSamples opts (opts.testTime / ((max B 1 : ℤ) : ℚ)) := by
  have hm0 : (0 : ℚ) < ((max B 1 : ℤ) : ℚ) := by
    have : (0 : ℤ) < max B 1 := lt_of_lt_of_le one_pos (le_max_right B 1)
    exact_mod_cast this
  refine ⟨rfl, le_max_left _ _, div_pos ht hm0, ?_⟩
  have hsimp : opts.testTime / (opts.testTime / ((max B 1 : ℤ) : ℚ)) =
      ((max B 1 : ℤ) : ℚ) := by
    rw [div_div_eq_mul_div, mul_comm, mul_div_assoc, div_self (ne_of_gt ht), mul_one]
  calc (B : ℤ) ≤ max B 1 := le_max_left B 1
    _ = ⌊((max B 1 : ℤ) : ℚ)⌋ := (Int.floor_intCast _).symm
    _ = ⌊opts.testTime / (opts.testTime / ((max B 1 : ℤ) : ℚ))⌋ := by rw [hsimp]
    _ ≤ deriveSamples opts (opts.testTime / ((max B 1 : ℤ) : ℚ)) := le_max_right _ _

/-- Witness for C4 under default options, estimate 1 ms, target one million
samples. -/
theorem c4_sample_count_witness :
    deriveSamples defaultOpts 1 = max ((defaultOpts.samples : ℤ)) ⌊defaultOpts.testTime / 1⌋ ∧
    (defaultOpts.samples : ℤ) ≤ deriveSamples defaultOpts 1 ∧
    0 < defaultOpts.testTime / ((max 1000000 1 : ℤ) : ℚ) ∧
    1000000 ≤ deriveSamples defaultOpts (defaultOpts.testTime / ((max 1000000 1 : ℤ) : ℚ)) :=
  c4_sample_count defaultOpts 1 1000000 (by decide)

/-- C5: the plain entry point is the fancy entry point applied to the adapter
whose whole body is the measured region, so both produce the same result (the
same Report Store update); moreover each adapted trial measures exactly the
plain workload's whole elapsed time. -/
theorem c5_bench_refines_benchFancy (options : BenchArg) (fn : PlainFn)
    (fuel : ℕ) (clock : ℚ) (st : ReportStore) (i : ℕ) (c : ℚ) :
    bench options fn fuel clock st = benchFancy options (wrapPlain fn) fuel clock st ∧
    run1 c (wrapPlain fn i) = .ok (c + fn i, fn i) := by
  refine ⟨rfl, ?_⟩
  have h : lastMeasureDur (wrapPlain fn i) = some (fn i) := by
    simp [wrapPlain, lastMeasureDur]
  have := run1_of_lastMeasure_some (wrapPlain fn i) (fn i) h c
  simpa [wrapPlain, traceDur] using this

/-- C9: `round` applies magnitude-adaptive decimal rounding: inputs below 1
round to 3 decimal places, below 10 to 2, below 100 to 1, and the rest to the
nearest whole number — on each branch the result is the decimal rounding at
that precision and lies within half of the last displayed digit of the
input. -/
theorem c9_round_policy (n : ℚ) :
    (n < 1 → round n = (jsRound (n * 1000) : ℚ) / 1000 ∧ |round n - n| ≤ 1 / 2000) ∧
    (1 ≤ n → n < 10 → round n = (jsRound (n * 100) : ℚ) / 100 ∧ |round n - n| ≤ 1 / 200) ∧
    (10 ≤ n → n < 100 → round n = (jsRound (n * 10) : ℚ) / 10 ∧ |round n - n| ≤ 1 / 20) ∧
    (100 ≤ n → round n = (jsRound n : ℚ) ∧ |round n - n| ≤ 1 / 2) := by
  refine ⟨fun h1 => ?_, fun h1 h2 => ?_, fun h1 h2 => ?_, fun h1 => ?_⟩
  · rw [round, if_pos h1]
    refine ⟨by unfold roundDigits; norm_num, ?_⟩
    have := abs_roundDigits_sub_le n 3
    norm_num at this
    exact this
  · rw [round, if_neg (not_lt.mpr h1), if_pos h2]
    refine ⟨by unfold roundDigits; norm_num, ?_⟩
    have := abs_roundDigits_sub_le n 2
    norm_num at this
    exact this
  · rw [round, if_neg (not_lt.mpr (by linarith)), if_neg (not_lt.mpr h1), if_pos h2]
    refine ⟨by unfold roundDigits; norm_num, ?_⟩
    have := abs_roundDigits_sub_le n 1
    norm_num at this
    exact this
  · rw [round, if_neg (not_lt.mpr (by linarith)), if_neg (not_lt.mpr (by linarith)),
      if_neg (not_lt.mpr h1)]
    exact ⟨rfl, abs_jsRound_sub_le n⟩

/-- Witness for C9 at 55.55 (the 1-decimal branch). -/
theorem c9_round_policy_witness :
    round (1111/20) = (jsRound ((1111/20) * 10) : ℚ) / 10 ∧
    |round (1111/20) - 1111/20| ≤ 1 / 20 :=
  (c9_round_policy (1111/20)).2.2.1 (by norm_num) (by norm_num)

/-- C10: when a workload invokes `measure` more than once within one trial,
`run1` raises no error and returns the elapsed time of the last invocation
(its recorded start/end are the ones that survive), and appending one more
`measure` invocation overwrites the recorded region again. -/
theorem c10_run1_last_measure_wins (t : FancyTrace) (clock d e : ℚ)
    (h2 : 2 ≤ countMeasures t) (hd : lastMeasureDur t = some d) :
    run1 clock t = .ok (clock + traceDur t, d) ∧
    lastMeasureDur (t ++ [.measure e]) = some e :=
  ⟨run1_of_lastMeasure_some t d hd clock, lastMeasureDur_append_measure t e⟩

/-- Witness for C10: two measured regions of 1 ms and 2 ms; the trial reports
2 ms, and a further 5 ms region would overwrite that. -/
theorem c10_run1_last_measure_wins_witness :
    run1 0 measureTwice = .ok (0 + traceDur measureTwice, 2) ∧
    lastMeasureDur (measureTwice ++ [.measure 5]) = some 5 :=
  c10_run1_last_measure_wins measureTwice 0 2 5 (by decide) (by decide)

/-- C1 counterexample: with "A" both in the registry (meanTime 1) and in the
on-disk mapping (meanTime 2), `reportTable` renders the ON-DISK mean 2 for
"A", not the in-memory mean 1 — the on-disk entry overrides the in-memory
one, refuting the claimed in-memory precedence. -/
theorem c1_counterexample :
    renderedCell (some (some (.ok diskA))) storeA "A" = .ok (some (some 2)) ∧
    storeA "A" = some rptOne ∧ rptOne.meanTime = 1 ∧
    round 1 = 1 ∧ round 2 = 2 ∧ (2 : ℚ) ≠ 1 := by
  have hv : passesObjectCheck diskA = true := by decide
  have hd : jsProps diskA "A" = some (.obj [("meanTime", .num 2)]) := rfl
  have hcell : meanCell (.obj [("meanTime", .num 2)]) = some 2 := by
    simp only [meanCell, objGet]
    norm_num [round, roundDigits, jsRound]
  refine ⟨?_, by decide, by decide, ?_, ?_, by norm_num⟩
  · simp only [renderedCell, reportTable, if_pos hv]
    simp [Except.map, jsSpread, hd, hcell]
  · rw [round]
    norm_num [roundDigits, jsRound]
  · rw [round]
    norm_num [roundDigits, jsRound]

/-- C1 (amended): with a path, `reportTable` overlays the on-disk mapping onto
the in-memory registry with ON-DISK entries taking precedence: a name present
on disk renders from the on-disk value even when also in memory, and in-memory
reports render only for names absent from the on-disk mapping. -/
theorem c1_amended_disk_precedence (v : JsonValue) (st : ReportStore)
    (td : TableData) (k : String)
    (hv : passesObjectCheck v = true)
    (h : reportTable (some (some (.ok v))) st = .ok td) :
    td k = (match jsProps v k with
            | some w => some (meanCell w)
            | none => (storeProps st k).map meanCell) := by
  simp only [reportTable, if_pos hv] at h
  simp only [Except.ok.injEq] at h
  subst h
  cases hw : jsProps v k <;> simp [jsSpread, hw]

/-- Witness for C1 (amended) at the colliding name "A". -/
theorem c1_amended_disk_precedence_witness :
    tableA "A" = (match jsProps diskA "A" with
                  | some w => some (meanCell w)
                  | none => (storeProps storeA "A").map meanCell) :=
  c1_amended_disk_precedence diskA storeA tableA "A" (by decide) rfl

/-- C7 counterexample: on-disk content that parses to a JSON array is present
and is not a well-formed name-to-report mapping, yet both the save-merge path
and the table-render path accept it instead of failing fast — the source's
guard only checks `typeof === 'object'` and non-null, which arrays pass. -/
theorem c7_counterexample :
    isWellFormedReportMapping arrayContent = false ∧
    exceptIsOk (saveReportsSync (some (.ok arrayContent)) emptyStore) = true ∧
    exceptIsOk (reportTable (some (some (.ok arrayContent))) emptyStore) = true :=
  ⟨rfl, rfl, rfl⟩

/-- C7 (amended): only absence of the report file is treated as empty existing
state; present content whose parsed value fails the typeof-object/non-null
check (a bare string, number, boolean, or null) is fatal on both the
save-merge and the table-render paths, as is content that fails to parse —
but the check does not reject object-typed values (such as arrays) that are
not well-formed name-to-report mappings. -/
theorem c7_amended_fail_fast (v : JsonValue) (st : ReportStore) (m : JsMap)
    (k : String)
    (h : passesObjectCheck v = false)
    (hm : saveReportsSync none st = .ok m) :
    saveReportsSync (some (.ok v)) st = .error "Report file is not an object" ∧
    reportTable (some (some (.ok v))) st = .error "Report file is not an object" ∧
    saveReportsSync (some (.error ())) st = .error "SyntaxError" ∧
    reportTable (some (some (.error ()))) st = .error "SyntaxError" ∧
    m k = storeProps st k := by
  refine ⟨?_, ?_, rfl, rfl, ?_⟩
  · simp only [saveReportsSync, if_neg (show ¬passesObjectCheck v = true by simp [h])]
  · simp only [reportTable, if_neg (show ¬passesObjectCheck v = true by simp [h])]
  · simp only [saveReportsSync, Except.ok.injEq] at hm
    subst hm
    cases hs : storeProps st k <;> simp [jsSpread, emptyJsMap, hs]

/-- Witness for C7 (amended) on the spec's own example content, a bare
string. -/
theorem c7_amended_fail_fast_witness :
    saveReportsSync (some (.ok notObjContent)) emptyStore = .error "Report file is not an object" ∧
    reportTable (some (some (.ok notObjContent))) emptyStore = .error "Report file is not an object" ∧
    saveReportsSync (some (.error ())) emptyStore = .error "SyntaxError" ∧
    reportTable (some (some (.error ()))) emptyStore = .error "SyntaxError" ∧
    savedEmpty "A" = storeProps emptyStore "A" :=
  c7_amended_fail_fast notObjContent emptyStore savedEmpty "A" (by decide) rfl

/-- C8: `saveReportsSync` writes exactly the union of the on-disk and
in-memory entries with the in-memory report replacing the on-disk one for
every name present in both: each name maps to its in-memory report when the
registry has one, otherwise to its on-disk entry, otherwise to nothing.  The
written mapping is the file's entire new content. -/
theorem c8_save_merge (v : JsonValue) (st : ReportStore) (m : JsMap) (k : String)
    (hv : passesObjectCheck v = true)
    (hm : saveReportsSync (some (.ok v)) st = .ok m) :
    m k = (match st k with
           | some r => some (reportToJson r)
           | none => jsProps v k) := by
  simp only [saveReportsSync, if_pos hv, Except.ok.injEq] at hm
  subst hm
  cases hs : st k <;> simp [jsSpread, storeProps, hs]

/-- Witness for C8 at the colliding name "A" of `diskAB` and `storeB`. -/
theorem c8_save_merge_witness :
    mergedAB "A" = (match storeB "A" with
                    | some r => some (reportToJson r)
                    | none => jsProps diskAB "A") :=
  c8_save_merge diskAB storeB mergedAB "A" (by decide) rfl

/-- C6: on a successful named engine run, the stored report's options are the
fully resolved options of that run, its sampleTimes list has exactly the
derived sample count of entries and equals the workloads' measured per-trial
times in execution order (trials `wc, wc+1, ...` after the `wc` warmup
trials), and its meanTime is the sum of the sample times divided by the
sample count. -/
theorem c6_report_contents (options : BenchArg) (fn : FancyFn) (fuel : ℕ)
    (clock : ℚ) (st st' : ReportStore) (nm : String) (r : BenchmarkReport)
    (wc : ℕ) (wt k : ℚ)
    (hrun : benchFancy options fn fuel clock st = .ok (some st'))
    (hname : (resolveOpts options).name = some nm)
    (hw : warmupLoop fn (resolveOpts options).warmupTime fuel 0 0 clock =
      .ok (some (wc, wt, k)))
    (hr : st' nm = some r) :
    r.options = resolveOpts options ∧
    r.sampleTimes.length = (deriveSamples (resolveOpts options) (wt / (wc : ℚ))).toNat ∧
    r.sampleTimes = sampleTimesOf fn wc r.sampleTimes.length ∧
    r.meanTime = r.sampleTimes.sum / (r.sampleTimes.length : ℚ) := by
  simp only [benchFancy, hw] at hrun
  cases hs : sampleLoop fn (deriveSamples (resolveOpts options) (wt / (wc : ℚ))).toNat
      wc k 0 [] with
  | error e =>
    rw [hs] at hrun
    exact absurd hrun (by simp)
  | ok out =>
    obtain ⟨tot, times, ck⟩ := out
    rw [hs, hname] at hrun
    simp only [Except.ok.injEq, Option.some.injEq] at hrun
    subst hrun
    simp only [storeSet, eq_self_iff_true, if_true, Option.some.injEq] at hr
    obtain ⟨h1, h2⟩ := sampleLoop_spec fn
      (deriveSamples (resolveOpts options) (wt / (wc : ℚ))).toNat wc k 0 [] (tot, times, ck) hs
    simp only [List.nil_append] at h1
    simp only [zero_add] at h2
    subst hr
    have hlen : times.length = (deriveSamples (resolveOpts options) (wt / (wc : ℚ))).toNat := by
      rw [h1, sampleTimesOf_length]
    refine ⟨rfl, hlen, ?_, ?_⟩
    · show times = sampleTimesOf fn wc times.length
      rw [hlen, h1]
    · show tot / ((deriveSamples (resolveOpts options) (wt / (wc : ℚ)) : ℤ) : ℚ) =
        times.sum / (times.length : ℚ)
      rw [h2, hlen]
      congr 1
      · rw [h1]
      · exact_mod_cast
          (Int.toNat_of_nonneg (deriveSamples_nonneg (resolveOpts options) (wt / (wc : ℚ)))).symm

/-- Witness for C6: the tiny fully-specified run (warmup bound 1 ms, test
time 1 ms, 2 samples, 1 ms per trial). -/
theorem c6_report_contents_witness :
    tinyReport.options = resolveOpts tinyArg ∧
    tinyReport.sampleTimes.length =
      (deriveSamples (resolveOpts tinyArg) (4 / ((4 : ℕ) : ℚ))).toNat ∧
    tinyReport.sampleTimes = sampleTimesOf oneFn 4 tinyReport.sampleTimes.length ∧
    tinyReport.meanTime = tinyReport.sampleTimes.sum / ((tinyReport.sampleTimes.length : ℕ) : ℚ) :=
  c6_report_contents tinyArg oneFn 10 0 emptyStore tinyStore "A" tinyReport 4 4 4
    (by norm_num [benchFancy, warmupLoop, sampleLoop, run1, run1Aux, oneFn, tinyArg,
      resolveOpts, defaultOpts, deriveSamples, tinyStore, tinyReport, storeSet, emptyStore])
    (by decide)
    (by norm_num [warmupLoop, run1, run1Aux, oneFn, tinyArg, resolveOpts, defaultOpts])
    (by decide)

end Smolbench
